import Mathlib

/-!
Verification of the errbot chat-bot middleware (errbotio/err).

This file gives a shallow embedding of the parts of the repository that the
claims concern:

* the multi-room relay plugin `ChatRoom` — `callback_message` and
  `callback_connect` from `errbot/core_plugins/chatRoom.py` and
  `errbot/builtins/chatRoom.py`;
* the `room_join` bot command from `errbot/core_plugins/chatRoom.py`;
* `join_room` / `leave_room` of the test backend `errbot/backends/test.py`;
* the execution pipeline `_execute_and_send` with its message chunking, and
  the `Identifier` address parser.  Those two live in
  `errbot/backends/base.py`, a file that is not part of the source tree here
  (only its tests in `tests/base_backend_tests.py` are), so they are modelled
  from the specification, as noted on each definition.

Python strings are embedded as `List Char` where character-level reasoning is
needed (chunking, address parsing) and as Lean `String` elsewhere.  Python
exceptions are made explicit: a function that can raise returns the raised
value in an `Option`, and callers model `try`/`except` by inspecting it.
-/

/-- Bodies that need character-level reasoning are plain lists of characters. -/
abbrev Text := List Char

/-! ## Relay: `ChatRoom.callback_message` (errbot/core_plugins/chatRoom.py)

The plugin inspects an inbound message; for a one-to-one message (`type ==
'chat'`) from a sender listed in `CHATROOM_RELAY` it forwards the body to each
configured room as a groupchat message; for a room message (`type ==
'groupchat'`) coming from a room listed in `REVERSE_CHATROOM_RELAY` it
forwards `'[person] body'` to each configured user.  The whole body of the
method is wrapped in a `try`/`except Exception` that logs and swallows any
failure. -/

/-- The relay configuration (`CHATROOM_RELAY` / `REVERSE_CHATROOM_RELAY` in
`config.py`), embedded as association lists keyed by sender identity
resp. room. -/
structure RelayConfig where
  CHATROOM_RELAY : List (String × List String)
  REVERSE_CHATROOM_RELAY : List (String × List String)

/-- The projection of an inbound message that `callback_message` reads:
`mess.type`, `mess.frm.person`, `mess.frm.room` and `mess.body`. -/
structure InMessage where
  type : String
  frmPerson : String
  frmRoom : String
  body : String

/-- One call to `self.send(target, body, message_type)`. -/
structure SendAction where
  target : String
  body : String
  messageType : String
deriving DecidableEq, Repr

/-- The backend's `send` may raise; the oracle `ok` tells which concrete send
calls succeed.  `sendLoop` embeds the `for target in targets: self.send(...)`
loop: sends are attempted in order until the first failing one, whose
exception aborts the loop (it is only caught by the `except` around the whole
callback).  It returns the list of attempted sends and whether an exception
escaped the loop. -/
def sendLoop (ok : SendAction → Bool) : List SendAction → List SendAction × Bool
  | [] => ([], false)
  | a :: rest =>
    if ok a then
      let r := sendLoop ok rest
      (a :: r.1, r.2)
    else ([a], true)

/-- The send calls the `'chat'` branch builds: one groupchat send of the body,
verbatim, per configured room. -/
def chatRelaySends (mess : InMessage) (rooms : List String) : List SendAction :=
  rooms.map fun room => ⟨room, mess.body, "groupchat"⟩

/-- The send calls the `'groupchat'` branch builds: one direct send of
`'[%s] %s' % (fr.person, mess.body)` per configured user. -/
def groupchatRelaySends (mess : InMessage) (users : List String) : List SendAction :=
  users.map fun user => ⟨user, "[" ++ mess.frmPerson ++ "] " ++ mess.body, "chat"⟩

/-- `ChatRoom.callback_message` of `errbot/core_plugins/chatRoom.py`.  Returns
the sends attempted and whether the surrounding `except Exception` caught a
crash; the function always returns (the exception never propagates to the
caller, matching the `try`/`except` around the whole method body). -/
def callback_message (cfg : RelayConfig) (ok : SendAction → Bool)
    (mess : InMessage) : List SendAction × Bool :=
  if mess.type = "chat" then
    match cfg.CHATROOM_RELAY.lookup mess.frmPerson with
    | some rooms => sendLoop ok (chatRelaySends mess rooms)
    | none => ([], false)
  else if mess.type = "groupchat" then
    match cfg.REVERSE_CHATROOM_RELAY.lookup mess.frmRoom with
    | some users => sendLoop ok (groupchatRelaySends mess users)
    | none => ([], false)
  else ([], false)

/-! ## Room joining: `ChatRoom.callback_connect`
(errbot/core_plugins/chatRoom.py)

For each room of `CHATROOM_PRESENCE` the method calls
`self.query_room(room).join(...)` inside a `try` that catches only two
exception classes: `NotImplementedError` (fall back to the legacy
`self.join_room(room, ...)`, itself unguarded) and `SlackAPIResponseError`
(re-raised unless its error code is `"user_is_bot"`, in which case the method
logs a warning and returns, abandoning the remaining rooms).  Any other
exception propagates out of `callback_connect`.  The whole loop runs only when
`self.connected` is false, and `self.connected` is set before the loop. -/

/-- Outcome of one `query_room(room).join(...)` call. -/
inductive JoinOutcome
  | ok
  | notImplemented
  | slackErr (code : String)
  | failure (e : String)
deriving DecidableEq, Repr

/-- Result of `callback_connect`: the new `connected` flag, the rooms for
which a join was attempted (in order), and the exception that propagated out
of the method, if any. -/
structure ConnectResult where
  connected : Bool
  attempted : List String
  raised : Option String
deriving DecidableEq, Repr

/-- The `for room in self.bot_config.CHATROOM_PRESENCE` loop.  `qj` gives the
outcome of `query_room(room).join(...)`, `legacy` the exception (if any) of
the fallback `join_room`.  Returns the attempted rooms and the propagated
exception. -/
def joinLoop (qj : String → JoinOutcome) (legacy : String → Option String) :
    List String → List String × Option String
  | [] => ([], none)
  | room :: rest =>
    match qj room with
    | .ok =>
      let r := joinLoop qj legacy rest
      (room :: r.1, r.2)
    | .notImplemented =>
      match legacy room with
      | none =>
        let r := joinLoop qj legacy rest
        (room :: r.1, r.2)
      | some e => ([room], some e)
    | .slackErr code =>
      if code = "user_is_bot" then ([room], none)
      else ([room], some code)
    | .failure e => ([room], some e)

/-- A room on which `query_room(...).join(...)` neither raises an uncaught
exception nor triggers the `user_is_bot` early return: either the join
succeeds, or it is a `NotImplementedError` whose legacy fallback succeeds. -/
def joinProceeds (qj : String → JoinOutcome) (legacy : String → Option String)
    (room : String) : Prop :=
  qj room = .ok ∨ (qj room = .notImplemented ∧ legacy room = none)

namespace ChatRoomCP

/-- `ChatRoom.callback_connect` of `errbot/core_plugins/chatRoom.py`:
a no-op when already connected, otherwise sets `connected` and runs the
join loop over the presence list. -/
def callback_connect (connected : Bool) (rooms : List String)
    (qj : String → JoinOutcome) (legacy : String → Option String) :
    ConnectResult :=
  if connected then ⟨true, [], none⟩
  else
    let r := joinLoop qj legacy rooms
    ⟨true, r.1, r.2⟩

end ChatRoomCP

/-! ## Room joining and keep-alive: the older `ChatRoom.callback_connect`
(errbot/builtins/chatRoom.py)

The older variant guards on `self.connected` the same way, joins each room of
`CHATROOM_PRESENCE` with `self.join_room(room, CHATROOM_FN)` and then starts
the recurring `keep_alive` timer — all of it only inside the
`if not self.connected` block. -/

/-- The plugin state the older `callback_connect` reads and writes. -/
structure CRState where
  connected : Bool
  keepAliveRunning : Bool
deriving DecidableEq, Repr

/-- What one call to the older `callback_connect` did: the state it leaves
behind, the rooms it passed to `join_room` (in order), and whether it started
a keep-alive timer. -/
structure ConnectEffects where
  state : CRState
  joinsPerformed : List String
  keepAliveStarted : Bool
deriving DecidableEq, Repr

namespace ChatRoomB

/-- `ChatRoom.callback_connect` of `errbot/builtins/chatRoom.py`. -/
def callback_connect (st : CRState) (rooms : List String) : ConnectEffects :=
  if st.connected then ⟨st, [], false⟩
  else ⟨⟨true, true⟩, rooms, true⟩

end ChatRoomB

/-! ## The `room_join` command (errbot/core_plugins/chatRoom.py)

`room_join` splits its raw argument string with `args.split(' ', 1)` (split on
a single space, at most one split), returns the usage message when the
resulting list has length `< 1`, and otherwise attempts to join the room named
by the first element, with the second element (when present) as password. -/

/-- Python's `s.split(sep, 1)` for a one-character separator: split at the
first occurrence of the separator, keeping both sides; a string with no
separator — including the empty string — yields the one-element list `[s]`. -/
def pySplitOnce (sep : Char) (s : Text) : List Text :=
  match s with
  | [] => [[]]
  | c :: rest =>
    if c = sep then [[], rest]
    else
      match pySplitOnce sep rest with
      | [] => [[c]]
      | a :: more => (c :: a) :: more

/-- What the argument-handling part of `room_join` decides to do. -/
inductive RoomJoinResult
  | usageMessage
  | joinAttempt (room : Text) (password : Option Text)
deriving DecidableEq, Repr

/-- `ChatRoom.room_join` of `errbot/core_plugins/chatRoom.py`, up to the
decision which room/password to join with: `args = args.split(' ', 1)`, then
the `arglen < 1` usage branch, then `(args[0], None)` when one part and
`(args[0], args[1])` when two. -/
def room_join (args : Text) : RoomJoinResult :=
  let parts := pySplitOnce ' ' args
  if parts.length < 1 then .usageMessage
  else
    match parts with
    | [] => .usageMessage
    | [room] => .joinAttempt room none
    | room :: password :: _ => .joinAttempt room (some password)

/-! ## The test backend's room bookkeeping (errbot/backends/test.py)

`joined_rooms` is a Python dict from room id to a `MUCRoom`.  `join_room`
only logs a warning when the room is already a key, otherwise it inserts
`MUCRoom(jid=room, occupants=[bot_itself])`; `leave_room` pops the key and
turns the `KeyError` of an absent key into a logged warning.  Neither ever
raises.  A dict with insertion order is embedded as an association list with
distinct keys; insertion appends, `pop` removes the key's entry. -/

/-- The fields of `errbot.backends.test.MUCRoom` that `join_room` sets. -/
structure MUCRoomM where
  jid : String
  occupants : List String
deriving DecidableEq, Repr

namespace TestBackend

/-- `TestBackend.join_room`: a no-op (apart from a logged warning) when the
room is already joined, otherwise insert a fresh `MUCRoom` whose only
occupant is the bot itself. -/
def join_room (jr : List (String × MUCRoomM)) (room : String)
    (botItself : String) : List (String × MUCRoomM) :=
  if (jr.lookup room).isSome then jr
  else jr ++ [(room, ⟨room, [botItself]⟩)]

/-- `TestBackend.leave_room`: `joined_rooms.pop(room)` with the `KeyError`
caught — remove the entry when present, otherwise only log a warning. -/
def leave_room (jr : List (String × MUCRoomM)) (room : String) :
    List (String × MUCRoomM) :=
  if (jr.lookup room).isSome then jr.eraseP (fun p => p.1 == room)
  else jr

end TestBackend

/-! ## The execution pipeline `_execute_and_send`

`_execute_and_send` lives in `errbot/backends/base.py`, which is not part of
this source tree — only its tests (`tests/base_backend_tests.py`) are.  The
definitions of this section are therefore modelled from the specification
(§4.4–4.6 and §8 of the spec), with the tests fixing the observable
behaviour: a handler result is either a single value or a lazily produced
sequence of values; each produced item is chunked against the configured
message-size limit and sent in order; a failure raised at any point of the
production stops consumption, everything already produced stays sent, and a
single synthetic error message carrying the fixed marker
`MSG_ERROR_OCCURRED` plus the failure's description is appended; the failure
never propagates out of the pipeline. -/

/-- Modelled from the spec: the fixed human-readable marker string
(`MSG_ERROR_OCCURRED` of `errbot/backends/base.py`, not in the source tree)
that every synthetic error message begins with.  Its exact wording is not
specified; only that it is fixed. -/
def MSG_ERROR_OCCURRED : Text :=
  "Computer says nooo. See logs for details.".toList

/-- Modelled from the spec: the body of the synthetic error message — the
fixed marker followed by the failure's description. -/
def errorReplyBody (e : Text) : Text := MSG_ERROR_OCCURRED ++ ": ".toList ++ e

/-- Modelled from the spec: the message-size chunking of
`errbot/backends/base.py` (not in the source tree).  A body at most the limit
is a single chunk; a longer one is cut into contiguous chunks of exactly the
limit (the last possibly shorter), preserving order — the tests
`test_output_longer_than_max_message_size_is_split_...` observe exactly this:
a body that is three size-limit repetitions of a line comes back as three
messages each equal to that line. -/
def splitAux (limit : Nat) : Nat → Text → List Text
  | 0, s => [s]
  | fuel + 1, s =>
    if s.length ≤ limit ∨ limit = 0 then [s]
    else s.take limit :: splitAux limit fuel (s.drop limit)

/-- The chunking entry point; the fuel `s.length` always suffices because
each step removes `limit ≥ 1` characters. -/
def split_string_after (limit : Nat) (s : Text) : List Text :=
  splitAux limit s.length s

/-- The metadata every outbound message of one dispatch shares: the reply's
recipient (`to`), the bot's own identity as sender (`frm`), and the
direct/broadcast kind. -/
structure ReplyMeta where
  recipient : String
  frm : String
  kind : String
deriving DecidableEq, Repr

/-- One outbound message handed to the backend's `send_message` (`to`, `frm`,
kind, body). -/
structure OutMessage where
  recipient : String
  frm : String
  kind : String
  body : Text
deriving DecidableEq, Repr

/-- Modelled from the spec: what one execution of a handler produced — the
finite list of items the (possibly lazy) result yielded before it either
ended normally (`failure = none`) or raised (`failure = some e`, the
description of the `HandlerFailure`). -/
structure HandlerRun where
  items : List Text
  failure : Option Text

/-- Modelled from the spec: `_execute_and_send` of `errbot/backends/base.py`
(not in the source tree).  Consumes the handler's production, chunks every
produced item against the size limit — each chunk becoming its own outbound
message with the shared reply metadata — and, when the production raised,
appends the single synthetic error message.  The function is total: the
handler's failure never propagates out of the pipeline. -/
def execute_and_send (limit : Nat) (meta : ReplyMeta) (run : HandlerRun) :
    List OutMessage :=
  (run.items.map fun it =>
    (split_string_after limit it).map fun c =>
      OutMessage.mk meta.recipient meta.frm meta.kind c).flatten
  ++ match run.failure with
     | some e =>
       [OutMessage.mk meta.recipient meta.frm meta.kind (errorReplyBody e)]
     | none => []

/-! ## The `Identifier` address parser

`Identifier` also lives in `errbot/backends/base.py`, outside this source
tree; it is modelled from the specification (§3, §4.1): the string form is
`person@host[/resource]`, the node part may itself contain `@`, so parsing
cuts the resource at the first `/` and then splits the remainder at its last
`@`; parsing fails when no `@` is present. -/

/-- Split a list at the first occurrence of `c`: `some (before, after)` when
`c` occurs (with `before` free of `c`), `none` otherwise. -/
def splitFirst (c : Char) : Text → Option (Text × Text)
  | [] => none
  | x :: xs =>
    if x = c then some ([], xs)
    else (splitFirst c xs).map fun p => (x :: p.1, p.2)

/-- Split a list at the last occurrence of `c`: `some (before, after)` when
`c` occurs (with `after` free of `c`), `none` otherwise. -/
def splitLast (c : Char) (s : Text) : Option (Text × Text) :=
  (splitFirst c s.reverse).map fun p => (p.2.reverse, p.1.reverse)

namespace Identifier

/-- Modelled from the spec: the parsed participant address — node, domain and
optional resource. -/
structure JID where
  node : Text
  domain : Text
  resource : Option Text
deriving DecidableEq, Repr

/-- Split the bare part at its last `@` into node and domain; no `@` means
the address is malformed (`none`). -/
def parseBase (base : Text) (res : Option Text) : Option JID :=
  match splitLast '@' base with
  | some (n, d) => some ⟨n, d, res⟩
  | none => none

/-- Modelled from the spec: parsing an address string.  The resource is
everything after the first `/`; what precedes it is split at its last `@`
(so the node may itself contain `@`). -/
def parse (s : Text) : Option JID :=
  match splitFirst '/' s with
  | some (base, res) => parseBase base (some res)
  | none => parseBase s none

/-- Modelled from the spec: the string form `person@host[/resource]`. -/
def render (j : JID) : Text :=
  j.node ++ '@' :: j.domain ++
    match j.resource with
    | some r => '/' :: r
    | none => []

end Identifier

/-! ## Helper lemmas -/

/-- The send loop attempts the sends up to and including the first failing
one, and the crash flag is set exactly when some send fails. -/
theorem sendLoop_eq (ok : SendAction → Bool) (l : List SendAction) :
    sendLoop ok l
      = (l.takeWhile ok ++ (l.dropWhile ok).take 1, !l.all ok) := by
  induction l with
  | nil => simp [sendLoop]
  | cons a rest ih =>
    by_cases h : ok a = true
    · simp [sendLoop, h, ih]
    · simp [sendLoop, h]

/-- When every send succeeds, the loop delivers all of them without a crash. -/
theorem sendLoop_of_all (ok : SendAction → Bool) (l : List SendAction)
    (h : ∀ a ∈ l, ok a = true) : sendLoop ok l = (l, false) := by
  induction l with
  | nil => simp [sendLoop]
  | cons a rest ih =>
    have ha := h a (by simp)
    simp [sendLoop, ha, ih (fun x hx => h x (by simp [hx]))]

/-- Rooms that proceed are passed through by the join loop, which then
continues on the rest of the list. -/
theorem joinLoop_append (qj : String → JoinOutcome)
    (legacy : String → Option String) (pre rest : List String)
    (hpre : ∀ r ∈ pre, joinProceeds qj legacy r) :
    joinLoop qj legacy (pre ++ rest)
      = (pre ++ (joinLoop qj legacy rest).1, (joinLoop qj legacy rest).2) := by
  induction pre with
  | nil => simp
  | cons r pre ih =>
    have hr := hpre r (by simp)
    have ihr := ih (fun x hx => hpre x (by simp [hx]))
    rcases hr with h | ⟨h1, h2⟩
    · simp [joinLoop, h, ihr]
    · simp [joinLoop, h1, h2, ihr]

/-! ## Claim theorems -/

/-- C3 as stated is false on the code: in
`ChatRoom.callback_message` (`errbot/core_plugins/chatRoom.py`) the
`try`/`except` wraps the whole fan-out loop, so when the send to the first
relay target `room1` raises, the send to the remaining target `room2` of the
same fan-out is never attempted (the exception is caught at the outer level,
visible in the crash flag). -/
theorem c3_counterexample :
    (callback_message ⟨[("alice@x", ["room1", "room2"])], []⟩
        (fun a => a.target != "room1")
        ⟨"chat", "alice@x", "", "hello"⟩
      = ([⟨"room1", "hello", "groupchat"⟩], true))
    ∧ ∀ a ∈ (callback_message ⟨[("alice@x", ["room1", "room2"])], []⟩
        (fun a => a.target != "room1")
        ⟨"chat", "alice@x", "", "hello"⟩).1, a.target ≠ "room2" := by
  decide

/-- C3 (amended): in both fan-outs of `callback_message` — the Direct
(`'chat'`) relay to `CHATROOM_RELAY` rooms and the Broadcast (`'groupchat'`)
reverse relay to `REVERSE_CHATROOM_RELAY` users — when a send to one relay
target fails, the failure is caught by the `except` around the whole of
`callback_message` and never propagates (the embedded function is total and
returns with the crash flag set exactly when a send failed), but delivery to
the targets after the failing one of that same fan-out is NOT attempted: the
attempted sends are exactly the successful ones up to the first failure,
plus the failing one. -/
theorem c3_fanout_aborts_at_first_failure (cfg : RelayConfig)
    (ok : SendAction → Bool) :
    (∀ (mess : InMessage) (rooms : List String), mess.type = "chat" →
      cfg.CHATROOM_RELAY.lookup mess.frmPerson = some rooms →
      callback_message cfg ok mess
        = ((chatRelaySends mess rooms).takeWhile ok
            ++ ((chatRelaySends mess rooms).dropWhile ok).take 1,
           !(chatRelaySends mess rooms).all ok))
    ∧ (∀ (mess : InMessage) (users : List String), mess.type = "groupchat" →
      cfg.REVERSE_CHATROOM_RELAY.lookup mess.frmRoom = some users →
      callback_message cfg ok mess
        = ((groupchatRelaySends mess users).takeWhile ok
            ++ ((groupchatRelaySends mess users).dropWhile ok).take 1,
           !(groupchatRelaySends mess users).all ok)) := by
  constructor
  · intro mess rooms ht hl
    unfold callback_message
    rw [ht, hl]
    simp [sendLoop_eq]
  · intro mess users ht hl
    unfold callback_message
    rw [ht, hl]
    simp [sendLoop_eq]

/-- Witness for `c3_fanout_aborts_at_first_failure` at concrete inputs, one
per fan-out direction: in each, the target after the failing one is not
attempted and the crash flag is set. -/
theorem c3_fanout_witness :
    (callback_message ⟨[("bob@x", ["roomA", "roomB", "roomC"])], []⟩
        (fun a => a.target != "roomB")
        ⟨"chat", "bob@x", "", "hi"⟩
      = ([⟨"roomA", "hi", "groupchat"⟩, ⟨"roomB", "hi", "groupchat"⟩], true))
    ∧ (callback_message ⟨[], [("room1", ["u1", "u2", "u3"])]⟩
        (fun a => a.target != "u2")
        ⟨"groupchat", "carol", "room1", "hi"⟩
      = ([⟨"u1", "[carol] hi", "chat"⟩, ⟨"u2", "[carol] hi", "chat"⟩], true)) :=
  ⟨((c3_fanout_aborts_at_first_failure
      ⟨[("bob@x", ["roomA", "roomB", "roomC"])], []⟩
      (fun a => a.target != "roomB")).1 ⟨"chat", "bob@x", "", "hi"⟩
      ["roomA", "roomB", "roomC"] rfl rfl).trans (by decide),
   ((c3_fanout_aborts_at_first_failure
      ⟨[], [("room1", ["u1", "u2", "u3"])]⟩
      (fun a => a.target != "u2")).2 ⟨"groupchat", "carol", "room1", "hi"⟩
      ["u1", "u2", "u3"] rfl rfl).trans (by decide)⟩

/-- C4: a Direct (`'chat'`) message whose sender identity is a key of the
`CHATROOM_RELAY` table is forwarded verbatim as exactly one groupchat
(broadcast) send per configured room, in configured order, and a Direct
message from a sender that is not a key produces zero relay sends.  (The
sends all succeed here; failure behaviour is the subject of C3.) -/
theorem c4_direct_relay (cfg : RelayConfig) (ok : SendAction → Bool)
    (mess : InMessage) (hok : ∀ a, ok a = true) (ht : mess.type = "chat") :
    (∀ rooms, cfg.CHATROOM_RELAY.lookup mess.frmPerson = some rooms →
      callback_message cfg ok mess
        = (rooms.map fun room => ⟨room, mess.body, "groupchat"⟩, false))
    ∧ (cfg.CHATROOM_RELAY.lookup mess.frmPerson = none →
      callback_message cfg ok mess = ([], false)) := by
  constructor
  · intro rooms hl
    unfold callback_message
    rw [ht, hl]
    simp [sendLoop_of_all _ _ (fun a _ => hok a), chatRelaySends]
  · intro hl
    unfold callback_message
    rw [ht, hl]
    simp

/-- Witness for `c4_direct_relay`: the spec's own example — with
`CHATROOM_RELAY` mapping `alice@x` to `room1`, a direct `"hello"` from
`alice@x` produces exactly one broadcast of `"hello"` to `room1`, and a
direct message from `bob@x` produces zero relay sends. -/
theorem c4_direct_relay_witness :
    (callback_message ⟨[("alice@x", ["room1"])], []⟩ (fun _ => true)
        ⟨"chat", "alice@x", "", "hello"⟩
      = ([⟨"room1", "hello", "groupchat"⟩], false))
    ∧ (callback_message ⟨[("alice@x", ["room1"])], []⟩ (fun _ => true)
        ⟨"chat", "bob@x", "", "hello"⟩
      = ([], false)) :=
  ⟨((c4_direct_relay ⟨[("alice@x", ["room1"])], []⟩ (fun _ => true)
      ⟨"chat", "alice@x", "", "hello"⟩ (fun _ => rfl) rfl).1
      ["room1"] rfl).trans (by decide),
   (c4_direct_relay ⟨[("alice@x", ["room1"])], []⟩ (fun _ => true)
      ⟨"chat", "bob@x", "", "hello"⟩ (fun _ => rfl) rfl).2 rfl⟩

/-- C5: a Broadcast (`'groupchat'`) message whose originating room is a key
of the `REVERSE_CHATROOM_RELAY` table is forwarded as a direct (`'chat'`)
send to each configured user, in configured order, with body
`'[' + person + '] ' + body` — the sending occupant's display name in square
brackets, a space, then the original body. -/
theorem c5_reverse_relay (cfg : RelayConfig) (ok : SendAction → Bool)
    (mess : InMessage) (users : List String) (hok : ∀ a, ok a = true)
    (ht : mess.type = "groupchat")
    (hl : cfg.REVERSE_CHATROOM_RELAY.lookup mess.frmRoom = some users) :
    callback_message cfg ok mess
      = (users.map fun user =>
          ⟨user, "[" ++ mess.frmPerson ++ "] " ++ mess.body, "chat"⟩, false) := by
  unfold callback_message
  rw [ht, hl]
  simp [sendLoop_of_all _ _ (fun a _ => hok a), groupchatRelaySends]

/-- Witness for `c5_reverse_relay` at a concrete input. -/
theorem c5_reverse_relay_witness :
    callback_message ⟨[], [("room1", ["alice@x", "bob@x"])]⟩ (fun _ => true)
        ⟨"groupchat", "carol", "room1", "hello"⟩
      = ([⟨"alice@x", "[carol] hello", "chat"⟩,
          ⟨"bob@x", "[carol] hello", "chat"⟩], false) :=
  (c5_reverse_relay ⟨[], [("room1", ["alice@x", "bob@x"])]⟩ (fun _ => true)
    ⟨"groupchat", "carol", "room1", "hello"⟩ ["alice@x", "bob@x"]
    (fun _ => rfl) rfl rfl).trans (by decide)

/-- C6 as stated is false on the code: in
`ChatRoom.callback_connect` (`errbot/core_plugins/chatRoom.py`) the `try`
around `query_room(room).join(...)` catches only `NotImplementedError` and
the Slack `user_is_bot` error; a generic join failure for the first room of
`['room1', 'room2']` propagates out of `callback_connect` (`raised` is set)
and the join of `room2` is never attempted. -/
theorem c6_counterexample :
    (ChatRoomCP.callback_connect false ["room1", "room2"]
        (fun r => if r = "room1" then .failure "boom" else .ok) (fun _ => none)
      = ⟨true, ["room1"], some "boom"⟩)
    ∧ "room2" ∉ (ChatRoomCP.callback_connect false ["room1", "room2"]
        (fun r => if r = "room1" then .failure "boom" else .ok)
        (fun _ => none)).attempted := by
  decide

/-- C6 (amended): during the room-joining loop of `callback_connect`, a
generic failure to join one room propagates out of `callback_connect` and
prevents the join attempt for every subsequent room of the configured
presence list: after any prefix of rooms whose joins proceed (either
succeeding, or falling back on `NotImplementedError` to a successful legacy
`join_room`), a room whose join raises a generic exception ends the loop —
the attempted rooms are exactly that prefix plus the failing room, and the
exception is re-raised to the caller. -/
theorem c6_join_failure_aborts_loop (pre post : List String) (room e : String)
    (qj : String → JoinOutcome) (legacy : String → Option String)
    (hpre : ∀ r ∈ pre, joinProceeds qj legacy r)
    (hroom : qj room = .failure e) :
    ChatRoomCP.callback_connect false (pre ++ room :: post) qj legacy
      = ⟨true, pre ++ [room], some e⟩ := by
  unfold ChatRoomCP.callback_connect
  simp [joinLoop_append qj legacy pre _ hpre, joinLoop, hroom]

/-- Witness for `c6_join_failure_aborts_loop` at a concrete input. -/
theorem c6_join_failure_witness :
    ChatRoomCP.callback_connect false ["roomA", "roomB", "roomC"]
        (fun r => if r = "roomB" then .failure "boom" else .ok) (fun _ => none)
      = ⟨true, ["roomA", "roomB"], some "boom"⟩ :=
  c6_join_failure_aborts_loop ["roomA"] ["roomC"] "roomB" "boom"
    (fun r => if r = "roomB" then .failure "boom" else .ok) (fun _ => none)
    (by intro r hr; simp at hr; subst hr; exact Or.inl (by decide)) (by decide)

/-- C7: `callback_connect` is idempotent with respect to the connected state.
For the older variant (`errbot/builtins/chatRoom.py`), a second invocation
after any first one finds `connected` set, performs no room joins, starts no
second keep-alive and leaves the state unchanged; for the current variant
(`errbot/core_plugins/chatRoom.py`), a second invocation likewise attempts no
joins and raises nothing. -/
theorem c7_callback_connect_idempotent :
    (∀ (st : CRState) (rooms rooms2 : List String),
      ChatRoomB.callback_connect (ChatRoomB.callback_connect st rooms).state rooms2
        = ⟨(ChatRoomB.callback_connect st rooms).state, [], false⟩)
    ∧ (∀ (c : Bool) (rooms rooms2 : List String)
        (qj : String → JoinOutcome) (legacy : String → Option String),
      ChatRoomCP.callback_connect
          (ChatRoomCP.callback_connect c rooms qj legacy).connected rooms2 qj legacy
        = ⟨true, [], none⟩) := by
  constructor
  · intro st rooms rooms2
    unfold ChatRoomB.callback_connect
    by_cases h : st.connected <;> simp [h]
  · intro c rooms rooms2 qj legacy
    unfold ChatRoomCP.callback_connect
    cases c <;> simp

/-- The list Python's `s.split(sep, 1)` returns is never empty (for the empty
string it is `['']`). -/
theorem pySplitOnce_ne_nil (sep : Char) (s : Text) : pySplitOnce sep s ≠ [] := by
  induction s with
  | nil => simp [pySplitOnce]
  | cons c rest ih =>
    by_cases h : c = sep
    · simp [pySplitOnce, h]
    · cases hp : pySplitOnce sep rest with
      | nil => simp [pySplitOnce, h, hp]
      | cons a more => simp [pySplitOnce, h, hp]

/-- C9: the `"Please tell me which chatroom to join."` branch of `room_join`
(`errbot/core_plugins/chatRoom.py`) is unreachable, because
`args.split(' ', 1)` always yields a list of length at least 1; in particular
the empty argument string leads to an attempt to join the room named by the
empty string rather than to the usage message. -/
theorem c9_room_join_usage_unreachable :
    (∀ args : Text, room_join args ≠ .usageMessage)
    ∧ room_join [] = .joinAttempt [] none := by
  constructor
  · intro args
    unfold room_join
    cases hp : pySplitOnce ' ' args with
    | nil => exact absurd hp (pySplitOnce_ne_nil ' ' args)
    | cons a more =>
      cases more with
      | nil => simp
      | cons b more2 => simp
  · decide

/-- A successful dict lookup decomposes the association list around the first
entry with the looked-up key, and popping that key removes exactly that
entry. -/
theorem lookup_decomp (room : String) (v : MUCRoomM) :
    ∀ jr : List (String × MUCRoomM), jr.lookup room = some v →
      ∃ l1 l2, jr = l1 ++ (room, v) :: l2
        ∧ jr.eraseP (fun p => p.1 == room) = l1 ++ l2 := by
  intro jr
  induction jr with
  | nil => intro h; simp [List.lookup] at h
  | cons p rest ih =>
    intro h
    obtain ⟨k, w⟩ := p
    by_cases hk : room = k
    · subst hk
      rw [List.lookup, beq_self_eq_true] at h
      simp only [Option.some.injEq] at h
      subst h
      exact ⟨[], rest, by simp, by simp [List.eraseP_cons]⟩
    · rw [List.lookup, beq_eq_false_iff_ne.mpr hk] at h
      obtain ⟨l1, l2, h1, h2⟩ := ih h
      refine ⟨(k, w) :: l1, l2, by simp [h1], ?_⟩
      rw [List.eraseP_cons]
      simp only [beq_eq_false_iff_ne.mpr (Ne.symm hk)]
      simp [h2]

/-- C10: the test backend's room bookkeeping never raises and changes the
`joined_rooms` dict minimally — `join_room` of a room already joined leaves
the dict unchanged (no duplicate, no overwrite), `leave_room` of an absent
room leaves it unchanged (the `KeyError` is caught), `join_room` of an absent
room appends exactly one entry (a fresh `MUCRoom` whose only occupant is the
bot itself), and `leave_room` of a present room removes exactly that room's
entry. -/
theorem c10_test_backend_rooms (jr : List (String × MUCRoomM))
    (room botItself : String) :
    ((jr.lookup room).isSome → TestBackend.join_room jr room botItself = jr)
    ∧ (jr.lookup room = none →
        TestBackend.join_room jr room botItself
          = jr ++ [(room, ⟨room, [botItself]⟩)])
    ∧ (jr.lookup room = none → TestBackend.leave_room jr room = jr)
    ∧ (∀ v, jr.lookup room = some v →
        ∃ l1 l2, jr = l1 ++ (room, v) :: l2
          ∧ TestBackend.leave_room jr room = l1 ++ l2) := by
  refine ⟨?_, ?_, ?_, ?_⟩
  · intro h
    simp [TestBackend.join_room, h]
  · intro h
    simp [TestBackend.join_room, h]
  · intro h
    simp [TestBackend.leave_room, h]
  · intro v h
    obtain ⟨l1, l2, h1, h2⟩ := lookup_decomp room v jr h
    exact ⟨l1, l2, h1, by simp [TestBackend.leave_room, h, h2]⟩

/-- Witness for `c10_test_backend_rooms` at concrete inputs: joining `r1`
again is a no-op, joining absent `r2` appends it, leaving absent `r2` is a
no-op, and leaving present `r1` removes exactly its entry. -/
theorem c10_test_backend_rooms_witness :
    (TestBackend.join_room [("r1", ⟨"r1", ["bot"]⟩)] "r1" "bot"
      = [("r1", ⟨"r1", ["bot"]⟩)])
    ∧ (TestBackend.join_room [("r1", ⟨"r1", ["bot"]⟩)] "r2" "bot"
      = [("r1", ⟨"r1", ["bot"]⟩), ("r2", ⟨"r2", ["bot"]⟩)])
    ∧ (TestBackend.leave_room [("r1", ⟨"r1", ["bot"]⟩)] "r2"
      = [("r1", ⟨"r1", ["bot"]⟩)])
    ∧ ∃ l1 l2, [("r1", ⟨"r1", ["bot"]⟩)] = l1 ++ ("r1", MUCRoomM.mk "r1" ["bot"]) :: l2
        ∧ TestBackend.leave_room [("r1", ⟨"r1", ["bot"]⟩)] "r1" = l1 ++ l2 :=
  ⟨(c10_test_backend_rooms [("r1", ⟨"r1", ["bot"]⟩)] "r1" "bot").1 (by decide),
   ((c10_test_backend_rooms [("r1", ⟨"r1", ["bot"]⟩)] "r2" "bot").2.1 (by decide)).trans
     (by decide),
   (c10_test_backend_rooms [("r1", ⟨"r1", ["bot"]⟩)] "r2" "bot").2.2.1 (by decide),
   (c10_test_backend_rooms [("r1", ⟨"r1", ["bot"]⟩)] "r1" "bot").2.2.2
     ⟨"r1", ["bot"]⟩ (by decide)⟩

/-- The fuel argument of `splitAux` is irrelevant as long as it covers the
body's length. -/
theorem splitAux_congr (limit : Nat) :
    ∀ fuel fuel' (s : Text), s.length ≤ fuel → s.length ≤ fuel' →
      splitAux limit fuel s = splitAux limit fuel' s := by
  intro fuel
  induction fuel with
  | zero =>
    intro fuel' s hf hf'
    have hs : s = [] := List.length_eq_zero.mp (Nat.le_zero.mp hf)
    subst hs
    cases fuel' <;> simp [splitAux]
  | succ n ih =>
    intro fuel' s hf hf'
    cases fuel' with
    | zero =>
      have hs : s = [] := List.length_eq_zero.mp (Nat.le_zero.mp hf')
      subst hs
      simp [splitAux]
    | succ m =>
      by_cases h : s.length ≤ limit ∨ limit = 0
      · simp [splitAux, h]
      · push_neg at h
        obtain ⟨h1, h2⟩ := h
        simp only [splitAux,
          if_neg (show ¬(s.length ≤ limit ∨ limit = 0) by omega)]
        have hd : (s.drop limit).length ≤ n := by
          simp only [List.length_drop]; omega
        have hd' : (s.drop limit).length ≤ m := by
          simp only [List.length_drop]; omega
        rw [ih m (s.drop limit) hd hd']

/-- The defining recurrence of the chunker, independent of the fuel. -/
theorem split_string_after_eq (limit : Nat) (s : Text) :
    split_string_after limit s
      = if s.length ≤ limit ∨ limit = 0 then [s]
        else s.take limit :: split_string_after limit (s.drop limit) := by
  unfold split_string_after
  by_cases h : s.length ≤ limit ∨ limit = 0
  · rw [if_pos h]
    cases hn : s.length with
    | zero =>
      have hs : s = [] := List.length_eq_zero.mp hn
      subst hs
      simp [splitAux]
    | succ n => simp [splitAux, h]
  · rw [if_neg h]
    push_neg at h
    obtain ⟨h1, h2⟩ := h
    cases hn : s.length with
    | zero => omega
    | succ n =>
      simp only [splitAux,
        if_neg (show ¬(s.length ≤ limit ∨ limit = 0) by omega)]
      congr 1
      exact splitAux_congr limit n (s.drop limit).length (s.drop limit)
        (by simp only [List.length_drop]; omega) (Nat.le_refl _)

/-- A body within the size limit is a single chunk. -/
theorem split_string_after_small (limit : Nat) (s : Text)
    (h : s.length ≤ limit) : split_string_after limit s = [s] := by
  rw [split_string_after_eq, if_pos (Or.inl h)]

/-- A body exactly three times the limit is cut into its three
limit-sized thirds. -/
theorem split_string_after_three (limit : Nat) (s : Text) (hl : 0 < limit)
    (hs : s.length = 3 * limit) :
    split_string_after limit s
      = [s.take limit, (s.drop limit).take limit,
         (s.drop limit).drop limit] := by
  rw [split_string_after_eq, if_neg (by omega)]
  rw [split_string_after_eq, if_neg (by simp only [List.length_drop]; omega)]
  rw [split_string_after_eq,
    if_pos (Or.inl (by simp only [List.length_drop]; omega))]

/-- Items that fit within the limit each become exactly one message, so per-
item chunk-and-send degenerates to one send per item. -/
theorem flatten_of_fits (limit : Nat) (f : Text → OutMessage)
    (items : List Text) (hfit : ∀ it ∈ items, it.length ≤ limit) :
    (items.map fun it => (split_string_after limit it).map f).flatten
      = items.map f := by
  induction items with
  | nil => simp
  | cons a rest ih =>
    have ha := split_string_after_small limit a (hfit a (by simp))
    simp [ha, ih (fun x hx => hfit x (by simp [hx]))]

/-- C1: for a handler whose lazy sequence yields the N items `items` (each
within the size limit) and then raises on producing the next item, the
pipeline sends exactly the N corresponding normal outbound messages, in
production order, followed by exactly one synthetic error message whose body
starts with (hence contains) the fixed marker `MSG_ERROR_OCCURRED`; the
failure does not propagate (the embedded pipeline is a total function). -/
theorem c1_partial_output_then_error (limit : Nat) (meta : ReplyMeta)
    (items : List Text) (e : Text)
    (hfit : ∀ it ∈ items, it.length ≤ limit) :
    execute_and_send limit meta ⟨items, some e⟩
      = (items.map fun it => OutMessage.mk meta.recipient meta.frm meta.kind it)
        ++ [OutMessage.mk meta.recipient meta.frm meta.kind (errorReplyBody e)]
    ∧ ∃ t, errorReplyBody e = MSG_ERROR_OCCURRED ++ t := by
  constructor
  · unfold execute_and_send
    rw [flatten_of_fits limit _ items hfit]
  · exact ⟨": ".toList ++ e, by simp [errorReplyBody]⟩

/-- Witness for `c1_partial_output_then_error`: the
`yields_str_then_raises_exception` scenario of the tests — one yielded
`"foobar"`, then a raised `"Kaboom!"`. -/
theorem c1_partial_output_witness :
    execute_and_send 100 ⟨"noterr@localhost", "err@localhost", "chat"⟩
        ⟨["foobar".toList], some "Kaboom!".toList⟩
      = [⟨"noterr@localhost", "err@localhost", "chat", "foobar".toList⟩,
         ⟨"noterr@localhost", "err@localhost", "chat",
          errorReplyBody "Kaboom!".toList⟩]
    ∧ ∃ t, errorReplyBody "Kaboom!".toList = MSG_ERROR_OCCURRED ++ t :=
  ⟨((c1_partial_output_then_error 100 ⟨"noterr@localhost", "err@localhost", "chat"⟩
      ["foobar".toList] "Kaboom!".toList (by decide)).1).trans (by decide),
   (c1_partial_output_then_error 100 ⟨"noterr@localhost", "err@localhost", "chat"⟩
      ["foobar".toList] "Kaboom!".toList (by decide)).2⟩

/-- C2: an outbound item whose body is exactly three times the size limit is
chunked into exactly 3 messages, each at most the limit long, in input order,
whose bodies concatenate back to the original text; the chunking is applied
independently to each item of a multi-item (yielded) result, every resulting
message carrying the same reply metadata. -/
theorem c2_oversized_output_chunked (limit : Nat) (meta : ReplyMeta)
    (a b : Text) (hl : 0 < limit) (ha : a.length = 3 * limit)
    (_hb : b.length = 3 * limit) :
    ((split_string_after limit a).length = 3
     ∧ (∀ c ∈ split_string_after limit a, c.length ≤ limit)
     ∧ (split_string_after limit a).flatten = a)
    ∧ (execute_and_send limit meta ⟨[a, b], none⟩).map OutMessage.body
        = split_string_after limit a ++ split_string_after limit b
    ∧ ∀ m ∈ execute_and_send limit meta ⟨[a, b], none⟩,
        m.recipient = meta.recipient ∧ m.frm = meta.frm ∧ m.kind = meta.kind := by
  refine ⟨⟨?_, ?_, ?_⟩, ?_, ?_⟩
  · rw [split_string_after_three limit a hl ha]
    rfl
  · rw [split_string_after_three limit a hl ha]
    intro c hc
    simp only [List.mem_cons, List.not_mem_nil, or_false] at hc
    rcases hc with rfl | rfl | rfl <;>
      simp only [List.length_take, List.length_drop] <;> omega
  · rw [split_string_after_three limit a hl ha]
    simp only [List.flatten_cons, List.flatten_nil, List.append_nil]
    rw [List.take_append_drop, List.take_append_drop]
  · unfold execute_and_send
    simp only [List.map_cons, List.map_nil, List.flatten_cons,
      List.flatten_nil, List.append_nil, List.map_append, List.map_map]
    have hfun : (OutMessage.body ∘ fun c =>
        OutMessage.mk meta.recipient meta.frm meta.kind c) = fun c => c := rfl
    rw [hfun]
    simp
  · intro m hm
    unfold execute_and_send at hm
    simp only [List.map_cons, List.map_nil, List.flatten_cons, List.flatten_nil,
      List.append_nil, List.mem_append, List.mem_map] at hm
    rcases hm with ⟨c, _, rfl⟩ | ⟨c, _, rfl⟩ <;> exact ⟨rfl, rfl, rfl⟩

/-- Witness for `c2_oversized_output_chunked`: limit 2 and the two
six-character bodies `"abcdef"` and `"ghijkl"`. -/
theorem c2_oversized_output_witness :
    ((split_string_after 2 "abcdef".toList).length = 3
     ∧ (∀ c ∈ split_string_after 2 "abcdef".toList, c.length ≤ 2)
     ∧ (split_string_after 2 "abcdef".toList).flatten = "abcdef".toList)
    ∧ (execute_and_send 2 ⟨"u", "bot", "chat"⟩
        ⟨["abcdef".toList, "ghijkl".toList], none⟩).map OutMessage.body
        = split_string_after 2 "abcdef".toList
          ++ split_string_after 2 "ghijkl".toList
    ∧ ∀ m ∈ execute_and_send 2 ⟨"u", "bot", "chat"⟩
        ⟨["abcdef".toList, "ghijkl".toList], none⟩,
        m.recipient = "u" ∧ m.frm = "bot" ∧ m.kind = "chat" :=
  c2_oversized_output_chunked 2 ⟨"u", "bot", "chat"⟩ "abcdef".toList
    "ghijkl".toList (by decide) (by decide) (by decide)

/-- A successful first-occurrence split decomposes the list, the left part
free of the separator. -/
theorem splitFirst_eq_some (c : Char) :
    ∀ (l a b : Text), splitFirst c l = some (a, b) → l = a ++ c :: b ∧ c ∉ a := by
  intro l
  induction l with
  | nil => intro a b h; simp [splitFirst] at h
  | cons x xs ih =>
    intro a b h
    by_cases hx : x = c
    · subst hx
      simp [splitFirst] at h
      obtain ⟨ha, hb⟩ := h
      subst ha; subst hb
      simp
    · simp only [splitFirst, if_neg hx, Option.map_eq_some'] at h
      obtain ⟨⟨a', b'⟩, h1, h2⟩ := h
      simp only [Prod.mk.injEq] at h2
      obtain ⟨ha, hb⟩ := h2
      subst ha; subst hb
      obtain ⟨hl, hm⟩ := ih a' b' h1
      constructor
      · simp [hl]
      · simp only [List.mem_cons, not_or]
        exact ⟨fun h => hx h.symm, hm⟩

/-- The converse: splitting `a ++ c :: b` at the first `c`, when `a` is free
of `c`, gives back `(a, b)`. -/
theorem splitFirst_of_append (c : Char) (a b : Text) (ha : c ∉ a) :
    splitFirst c (a ++ c :: b) = some (a, b) := by
  induction a with
  | nil => simp [splitFirst]
  | cons x xs ih =>
    have hx : x ≠ c := fun h => ha (by simp [h])
    have hxs : c ∉ xs := fun h => ha (by simp [h])
    simp [splitFirst, hx, ih hxs]

/-- A list free of the separator does not split. -/
theorem splitFirst_of_not_mem (c : Char) (l : Text) (h : c ∉ l) :
    splitFirst c l = none := by
  induction l with
  | nil => simp [splitFirst]
  | cons x xs ih =>
    have hx : x ≠ c := fun hh => h (by simp [hh])
    have hxs : c ∉ xs := fun hh => h (by simp [hh])
    simp [splitFirst, hx, ih hxs]

/-- A successful last-occurrence split decomposes the list, the right part
free of the separator. -/
theorem splitLast_eq_some (c : Char) (l a b : Text)
    (h : splitLast c l = some (a, b)) : l = a ++ c :: b ∧ c ∉ b := by
  unfold splitLast at h
  rw [Option.map_eq_some'] at h
  obtain ⟨⟨x, y⟩, h1, h2⟩ := h
  simp only [Prod.mk.injEq] at h2
  obtain ⟨ha, hb⟩ := h2
  subst ha; subst hb
  obtain ⟨hl, hm⟩ := splitFirst_eq_some c l.reverse x y h1
  constructor
  · have := congrArg List.reverse hl
    simpa using this
  · simpa using hm

/-- The converse: splitting `a ++ c :: b` at the last `c`, when `b` is free
of `c`, gives back `(a, b)`. -/
theorem splitLast_of_append (c : Char) (a b : Text) (hb : c ∉ b) :
    splitLast c (a ++ c :: b) = some (a, b) := by
  unfold splitLast
  have hrev : (a ++ c :: b).reverse = b.reverse ++ c :: a.reverse := by
    simp
  rw [hrev, splitFirst_of_append c b.reverse a.reverse (by simpa using hb)]
  simp

/-- A list free of the separator does not split at its last occurrence
either. -/
theorem splitLast_of_not_mem (c : Char) (l : Text) (h : c ∉ l) :
    splitLast c l = none := by
  unfold splitLast
  rw [splitFirst_of_not_mem c l.reverse (by simpa using h)]
  rfl

/-- When the first-occurrence split fails, the separator does not occur. -/
theorem not_mem_of_splitFirst_none (c : Char) :
    ∀ l : Text, splitFirst c l = none → c ∉ l := by
  intro l
  induction l with
  | nil => intro _; simp
  | cons x xs ih =>
    intro h hm
    by_cases hx : x = c
    · subst hx; simp [splitFirst] at h
    · simp only [splitFirst, if_neg hx, Option.map_eq_none'] at h
      rcases List.mem_cons.mp hm with rfl | hm2
      · exact hx rfl
      · exact ih h hm2

/-- C8: parsing is stable under rendering — whenever an address string
parses, rendering the parsed identifier and parsing again yields the same
identifier: `parse (toString (parse s)) = parse s`.  This covers every
well-formed `person@host/resource` shape, the node part itself possibly
containing `@`, and also the resource-less `person@host` shape. -/
theorem c8_parse_render_roundtrip (s : Text) (j : Identifier.JID)
    (h : Identifier.parse s = some j) :
    Identifier.parse (Identifier.render j) = some j := by
  unfold Identifier.parse at h
  cases hf : splitFirst '/' s with
  | some p =>
    obtain ⟨base, res⟩ := p
    rw [hf] at h
    have h2 : Identifier.parseBase base (some res) = some j := h
    unfold Identifier.parseBase at h2
    cases hg : splitLast '@' base with
    | some q =>
      obtain ⟨n, d⟩ := q
      rw [hg] at h2
      have h3 : some (Identifier.JID.mk n d (some res)) = some j := h2
      obtain rfl := Option.some.inj h3
      obtain ⟨hbase, hslash⟩ := splitFirst_eq_some '/' s base res hf
      obtain ⟨hnd, hat⟩ := splitLast_eq_some '@' base n d hg
      have hsn : '/' ∉ n := fun hh => hslash (by simp [hnd, hh])
      have hsd : '/' ∉ d := fun hh => hslash (by simp [hnd, hh])
      have hrender : Identifier.render ⟨n, d, some res⟩
          = (n ++ '@' :: d) ++ '/' :: res := by
        simp [Identifier.render]
      unfold Identifier.parse
      rw [hrender, splitFirst_of_append '/' (n ++ '@' :: d) res
        (by simp only [List.mem_append, List.mem_cons, not_or]
            exact ⟨hsn, ⟨by decide, hsd⟩⟩)]
      show Identifier.parseBase (n ++ '@' :: d) (some res)
        = some ⟨n, d, some res⟩
      unfold Identifier.parseBase
      rw [splitLast_of_append '@' n d hat]
    | none =>
      rw [hg] at h2
      exact Option.noConfusion h2
  | none =>
    rw [hf] at h
    have h2 : Identifier.parseBase s none = some j := h
    unfold Identifier.parseBase at h2
    cases hg : splitLast '@' s with
    | some q =>
      obtain ⟨n, d⟩ := q
      rw [hg] at h2
      have h3 : some (Identifier.JID.mk n d none) = some j := h2
      obtain rfl := Option.some.inj h3
      have hslash : '/' ∉ s := not_mem_of_splitFirst_none '/' s hf
      obtain ⟨hnd, hat⟩ := splitLast_eq_some '@' s n d hg
      have hsn : '/' ∉ n := fun hh => hslash (by simp [hnd, hh])
      have hsd : '/' ∉ d := fun hh => hslash (by simp [hnd, hh])
      have hrender : Identifier.render ⟨n, d, none⟩ = n ++ '@' :: d := by
        simp [Identifier.render]
      unfold Identifier.parse
      rw [hrender, splitFirst_of_not_mem '/' (n ++ '@' :: d)
        (by simp only [List.mem_append, List.mem_cons, not_or]
            exact ⟨hsn, ⟨by decide, hsd⟩⟩)]
      show Identifier.parseBase (n ++ '@' :: d) none = some ⟨n, d, none⟩
      unfold Identifier.parseBase
      rw [splitLast_of_append '@' n d hat]
    | none =>
      rw [hg] at h2
      exact Option.noConfusion h2

/-- Witness for `c8_parse_render_roundtrip` on the double-`@` resource
address of the tests. -/
theorem c8_parse_render_witness :
    Identifier.parse
        (Identifier.render ⟨"gbin@titi.net".toList, "gootz.net".toList,
          some "toto".toList⟩)
      = some ⟨"gbin@titi.net".toList, "gootz.net".toList, some "toto".toList⟩ :=
  c8_parse_render_roundtrip "gbin@titi.net@gootz.net/toto".toList
    ⟨"gbin@titi.net".toList, "gootz.net".toList, some "toto".toList⟩ (by decide)

